import Mathlib

/-!
Tap-tempo estimation of the Sonic Pi metronome widget.

Verification development for `SonicPiMetro::tapTempo`
(`app/gui/qt/widgets/sonicpimetro.cpp`, lines 182-227).

Modelling conventions.

* `qint64` timestamps are integers (`Int`); `numTaps` is a tap counter that
  starts at zero and is only incremented or set to one, a natural number.
  Signed overflow (undefined behaviour in C++) is out of reach of any realistic
  session and is not modelled.
* A C++ `double` is a value of `Dbl`: an exact rational, an infinity or NaN.
  Finite arithmetic is carried out exactly in `ℚ`; a division by zero yields
  the IEEE 754 result (an infinity or NaN) instead of a number.
* The calls `tapTempo` makes on `bpmScrubWidget` are recorded, in order, as a
  list of `Effect`s.  The styling of the tap button (lines 184-189) has no
  influence on the estimation and is left out.
-/

namespace SonicPiMetro

/-- Value of a C++ `double`: a finite number, `+inf`, `-inf` or NaN. -/
inductive Dbl where
  | fin (q : ℚ)
  | pinf
  | ninf
  | nan
  deriving DecidableEq

namespace Dbl

/-- The C++ comparison `a != b` on doubles: NaN differs from everything,
itself included; all other values are compared by value. -/
def ne (a b : Dbl) : Bool :=
  match a, b with
  | nan, _ => true
  | _, nan => true
  | a, b => decide (a ≠ b)

/-- The C++ division `a / b` of two finite doubles (a zero divisor being `+0.0`):
a zero divisor gives NaN for `0 / 0` and an infinity of the sign of `a` otherwise. -/
def div (a b : ℚ) : Dbl :=
  if b = 0 then
    if a = 0 then nan else if 0 < a then pinf else ninf
  else fin (a / b)

end Dbl

/-- C `round` on a finite value: the nearest integer, halfway cases rounded
away from zero. -/
def cround (q : ℚ) : Int :=
  if 0 ≤ q then Int.floor (q + 1 / 2) else Int.ceil (q - 1 / 2)

/-- C `round` on a double: infinities and NaN are returned unchanged. -/
def round : Dbl → Dbl
  | Dbl.fin q => Dbl.fin (cround q)
  | d => d

/-- The tap-session members of `SonicPiMetro`. -/
structure Metro where
  numTaps : Nat
  firstTap : Int
  lastTap : Int
  deriving DecidableEq

/-- The calls `tapTempo` makes on `bpmScrubWidget`. -/
inductive Effect where
  | displayResetVisualCue
  | setDisplayAndSyncBPM (newBpm : Dbl)
  | displayBPMChangeVisualCue
  deriving DecidableEq

open Effect

/-- `SonicPiMetro::tapTempo` (lines 192-226): `m` holds the members before the
call, `getBPM` is what `bpmScrubWidget->getBPM()` returns and `timeStamp` is
`QDateTime::currentMSecsSinceEpoch()`.  Returns the members after the call and
the calls made on `bpmScrubWidget`. -/
def tapTempo (m : Metro) (getBPM : Dbl) (timeStamp : Int) : Metro × List Effect :=
  let numTaps := m.numTaps + 1
  if numTaps = 1 then
    ({ numTaps := numTaps, firstTap := timeStamp, lastTap := timeStamp }, [])
  else
    let timeSinceLastTap : ℚ := ((timeStamp - m.lastTap : Int) : ℚ)
    let totalTapDistance : ℚ := ((timeStamp - m.firstTap : Int) : ℚ)
    let avgDistance : ℚ := totalTapDistance / ((numTaps - 1 : Nat) : ℚ)
    if ((numTaps < 3) ∧
         ((timeSinceLastTap > (avgDistance + 30)) ∨
          (timeSinceLastTap < (avgDistance - 30)))) ∨
        ((timeSinceLastTap > (avgDistance + 50)) ∨
         (timeSinceLastTap < (avgDistance - 50))) then
      ({ numTaps := 1, firstTap := timeStamp, lastTap := timeStamp },
        [displayResetVisualCue])
    else if numTaps > 2 then
      let newBpm : Dbl := round (Dbl.div 60 (avgDistance / 1000))
      if Dbl.ne newBpm getBPM then
        ({ numTaps := numTaps, firstTap := m.firstTap, lastTap := timeStamp },
          [setDisplayAndSyncBPM newBpm, displayBPMChangeVisualCue])
      else
        ({ numTaps := numTaps, firstTap := m.firstTap, lastTap := timeStamp }, [])
    else
      ({ numTaps := numTaps, firstTap := m.firstTap, lastTap := timeStamp }, [])

/-- Modelled from the spec: `BPMScrubWidget` (`getBPM`, `setDisplayAndSyncBPM`,
the visual cues) is not part of the source at hand.  The spec's `currentBpm` is
the "last emitted BPM value (external, owned by the BPM display)": after
`setDisplayAndSyncBPM v` the display holds `v`, and the visual cues leave the
displayed value alone. -/
def display (bpm : Dbl) : Effect → Dbl
  | setDisplayAndSyncBPM v => v
  | _ => bpm

/-- The session together with the BPM shown by the display. -/
structure Session where
  metro : Metro
  currentBpm : Dbl
  deriving DecidableEq

/-- One tap on the widget: `tapTempo` reads the displayed BPM, and the calls it
makes are applied to the display in order. -/
def recordTap (s : Session) (timestampMs : Int) : Session × List Effect :=
  let r := tapTempo s.metro s.currentBpm timestampMs
  ({ metro := r.1, currentBpm := r.2.foldl display s.currentBpm }, r.2)

/-- The session after a sequence of taps. -/
def runState (s : Session) : List Int → Session
  | [] => s
  | t :: ts => runState (recordTap s t).1 ts

/-- The calls made by each tap of a sequence, one list per tap. -/
def runOut (s : Session) : List Int → List (List Effect)
  | [] => []
  | t :: ts => (recordTap s t).2 :: runOut (recordTap s t).1 ts

/-- The BPM a tap emitted, if any: the argument of its `setDisplayAndSyncBPM` call. -/
def emitted : List Effect → Option Dbl
  | [] => none
  | setDisplayAndSyncBPM v :: _ => some v
  | _ :: es => emitted es

/-- The tap signalled the reset cue. -/
def isReset (es : List Effect) : Bool := decide (displayResetVisualCue ∈ es)

/-- The tap signalled the "BPM changed" cue. -/
def isChanged (es : List Effect) : Bool := decide (displayBPMChangeVisualCue ∈ es)

/-- An idle session: no taps yet; the members `firstTap` and `lastTap` hold
whatever values `f` and `l` they had, and the display shows `bpm`. -/
def idle (f l : Int) (bpm : Dbl) : Session :=
  { metro := { numTaps := 0, firstTap := f, lastTap := l }, currentBpm := bpm }


/-- The session with the given members and displayed BPM. -/
def session (numTaps : Nat) (firstTap lastTap : Int) (bpm : Dbl) : Session :=
  { metro := { numTaps := numTaps, firstTap := firstTap, lastTap := lastTap },
    currentBpm := bpm }

/-- The spec's `intervalSinceLast = timestampMs - lastTapTime`. -/
def intervalSinceLast (m : Metro) (timestampMs : Int) : ℚ :=
  ((timestampMs - m.lastTap : Int) : ℚ)

/-- The spec's `avgInterval = totalSpan / (tapCount - 1)`, where `tapCount` is the
count after the increment, `m.numTaps + 1`, and `totalSpan = timestampMs - firstTapTime`. -/
def avgInterval (m : Metro) (timestampMs : Int) : ℚ :=
  ((timestampMs - m.firstTap : Int) : ℚ) / (((m.numTaps + 1 : Nat) : ℚ) - 1)

/-- The spec's tolerance: 30 ms while `tapCount < 3`, 50 ms once `tapCount >= 3`
(`tapCount` after the increment). -/
def tolerance (m : Metro) : ℚ :=
  if m.numTaps + 1 < 3 then 30 else 50

/-- The spec's `k` taps at uniform spacing `d`: `t0, t0 + d, ..., t0 + d * (k - 1)`. -/
def uniformTaps (t0 d : Int) (k : Nat) : List Int :=
  (List.range k).map (fun (i : Nat) => t0 + d * (i : Int))

/-! ## Auxiliary facts about one tap -/

theorem tapTempo_first (m : Metro) (g : Dbl) (ts : Int) (h : m.numTaps = 0) :
    tapTempo m g ts = ({ numTaps := 1, firstTap := ts, lastTap := ts }, []) := by
  simp [tapTempo, h]

/-- The reset test of the code, for a tap that is not the first of its session. -/
theorem tapTempo_isReset_iff (m : Metro) (g : Dbl) (ts : Int) (hn : 1 ≤ m.numTaps) :
    isReset (tapTempo m g ts).2 = true ↔
      ((m.numTaps + 1 < 3 ∧
          (((ts - m.lastTap : Int) : ℚ) > ((ts - m.firstTap : Int) : ℚ) / (m.numTaps : ℚ) + 30 ∨
           ((ts - m.lastTap : Int) : ℚ) < ((ts - m.firstTap : Int) : ℚ) / (m.numTaps : ℚ) - 30)) ∨
        (((ts - m.lastTap : Int) : ℚ) > ((ts - m.firstTap : Int) : ℚ) / (m.numTaps : ℚ) + 50 ∨
         ((ts - m.lastTap : Int) : ℚ) < ((ts - m.firstTap : Int) : ℚ) / (m.numTaps : ℚ) - 50)) := by
  have h0 : m.numTaps ≠ 0 := by omega
  simp only [tapTempo, isReset, Nat.add_sub_cancel]
  split_ifs with h1 h2 h3 h4
  · omega
  · exact ⟨fun _ => h2, fun _ => by simp⟩
  · exact ⟨fun h => by simp at h, fun h => absurd h h2⟩
  · exact ⟨fun h => by simp at h, fun h => absurd h h2⟩
  · exact ⟨fun h => by simp at h, fun h => absurd h h2⟩

/-- The first tap of a session does not signal the reset cue. -/
theorem tapTempo_isReset_first (m : Metro) (g : Dbl) (ts : Int) (h : m.numTaps = 0) :
    isReset (tapTempo m g ts).2 = false := by
  simp [tapTempo_first m g ts h, isReset]

/-- A tap that signals the reset cue does nothing else and restarts the session. -/
theorem tapTempo_of_isReset (m : Metro) (g : Dbl) (ts : Int)
    (h : isReset (tapTempo m g ts).2 = true) :
    tapTempo m g ts =
      ({ numTaps := 1, firstTap := ts, lastTap := ts }, [displayResetVisualCue]) := by
  revert h
  simp only [tapTempo, isReset]
  split_ifs <;> simp

/-- Every branch ends with `lastTap = timeStamp`. -/
theorem tapTempo_lastTap (m : Metro) (g : Dbl) (ts : Int) :
    (tapTempo m g ts).1.lastTap = ts := by
  simp only [tapTempo]
  split_ifs <;> rfl

/-- The counter after a tap is one (first tap or reset) or one more than before. -/
theorem tapTempo_numTaps (m : Metro) (g : Dbl) (ts : Int) :
    ((tapTempo m g ts).1.numTaps = 1 ∧ (tapTempo m g ts).1.firstTap = ts ∧
        emitted (tapTempo m g ts).2 = none) ∨
      ((tapTempo m g ts).1.numTaps = m.numTaps + 1 ∧ 1 ≤ m.numTaps ∧
        (tapTempo m g ts).1.firstTap = m.firstTap ∧ isReset (tapTempo m g ts).2 = false) := by
  simp only [tapTempo]
  split_ifs with h1 h2 h3 h4
  · exact Or.inl ⟨h1, rfl, rfl⟩
  · left; simp [emitted]
  · right; simp [isReset]; omega
  · right; simp [isReset]; omega
  · right; simp [isReset]; omega

/-- A tap that emits a BPM brings the counter to at least three and is not a reset. -/
theorem tapTempo_emitted (m : Metro) (g : Dbl) (ts : Int)
    (h : emitted (tapTempo m g ts).2 ≠ none) :
    3 ≤ (tapTempo m g ts).1.numTaps ∧ (tapTempo m g ts).1.numTaps = m.numTaps + 1 ∧
      isReset (tapTempo m g ts).2 = false := by
  revert h
  simp only [tapTempo]
  split_ifs with h1 h2 h3 h4
  · simp [emitted]
  · simp [emitted]
  · intro _; simp [isReset]; omega
  · simp [emitted]
  · simp [emitted]

/-- The second tap of a session that started with `firstTap = lastTap` is always
accepted: the counter becomes two and nothing is signalled. -/
theorem tapTempo_second (f : Int) (g : Dbl) (ts : Int) :
    tapTempo { numTaps := 1, firstTap := f, lastTap := f } g ts =
      ({ numTaps := 2, firstTap := f, lastTap := ts }, []) := by
  simp [tapTempo]

theorem dbl_ne_fin (q : ℚ) (b : Dbl) : Dbl.ne (Dbl.fin q) b = true ↔ Dbl.fin q ≠ b := by
  cases b <;> simp [Dbl.ne]

theorem runState_append (s : Session) (p q : List Int) :
    runState s (p ++ q) = runState (runState s p) q := by
  induction p generalizing s with
  | nil => rfl
  | cons t p ih => simp [runState, ih]

theorem runOut_append (s : Session) (p q : List Int) :
    runOut s (p ++ q) = runOut s p ++ runOut (runState s p) q := by
  induction p generalizing s with
  | nil => rfl
  | cons t p ih => simp [runState, runOut, ih]

/-- The reset test of the code in the spec's words: outside `avgInterval ± tolerance`. -/
theorem isReset_iff_outside (m : Metro) (g : Dbl) (ts : Int) (hn : 1 ≤ m.numTaps) :
    isReset (tapTempo m g ts).2 = true ↔
      (intervalSinceLast m ts > avgInterval m ts + tolerance m ∨
        intervalSinceLast m ts < avgInterval m ts - tolerance m) := by
  have hc : (((m.numTaps + 1 : Nat) : ℚ) - 1) = (m.numTaps : ℚ) := by
    push_cast; ring
  rw [tapTempo_isReset_iff m g ts hn]
  simp only [intervalSinceLast, avgInterval, tolerance, hc]
  split_ifs with h3
  · constructor
    · rintro (⟨_, h⟩ | h | h)
      · exact h
      · left; linarith
      · right; linarith
    · intro h; exact Or.inl ⟨h3, h⟩
  · constructor
    · rintro (⟨h, _⟩ | h)
      · exact absurd h h3
      · exact h
    · intro h; exact Or.inr h

/-- A tap that is accepted with a counter above two and a nonzero total span
computes a finite candidate BPM and emits it exactly when it differs from the
displayed one. -/
theorem tapTempo_accept (m : Metro) (g : Dbl) (ts : Int) (hn : 2 ≤ m.numTaps)
    (hno : isReset (tapTempo m g ts).2 = false) (hts : ts ≠ m.firstTap) :
    tapTempo m g ts =
      ({ numTaps := m.numTaps + 1, firstTap := m.firstTap, lastTap := ts },
        if Dbl.fin (cround (60000 * (m.numTaps : ℚ) / ((ts - m.firstTap : Int) : ℚ))) ≠ g then
          [setDisplayAndSyncBPM
              (Dbl.fin (cround (60000 * (m.numTaps : ℚ) / ((ts - m.firstTap : Int) : ℚ)))),
            displayBPMChangeVisualCue]
        else []) := by
  have hk : (m.numTaps : ℚ) ≠ 0 := by
    have : 0 < m.numTaps := by omega
    positivity
  have hspan : ((ts - m.firstTap : Int) : ℚ) ≠ 0 := by
    have : ts - m.firstTap ≠ 0 := sub_ne_zero.mpr hts
    exact_mod_cast this
  have hq : (60 : ℚ) / (((ts - m.firstTap : Int) : ℚ) / (m.numTaps : ℚ) / 1000) =
      60000 * (m.numTaps : ℚ) / ((ts - m.firstTap : Int) : ℚ) := by
    field_simp
    ring
  have hd : Dbl.div 60 (((ts - m.firstTap : Int) : ℚ) / (m.numTaps : ℚ) / 1000) =
      Dbl.fin (60000 * (m.numTaps : ℚ) / ((ts - m.firstTap : Int) : ℚ)) := by
    have hz : ((ts - m.firstTap : Int) : ℚ) / (m.numTaps : ℚ) / 1000 ≠ 0 := by
      positivity
    unfold Dbl.div
    rw [if_neg hz, hq]
  revert hno
  simp only [tapTempo, isReset, Nat.add_sub_cancel, hd, round, dbl_ne_fin]
  split_ifs with h1 h2 h3 h4 <;> first | omega | simp

/-- From idle, the counter never exceeds the number of taps received. -/
theorem runState_numTaps_le (f l : Int) (bpm : Dbl) (p : List Int) :
    (runState (idle f l bpm) p).metro.numTaps ≤ p.length := by
  induction p using List.reverseRecOn with
  | nil => simp [runState, idle]
  | append_singleton p t ih =>
    rw [runState_append, List.length_append]
    simp only [runState, recordTap, List.length_singleton]
    rcases tapTempo_numTaps (runState (idle f l bpm) p).metro
      (runState (idle f l bpm) p).currentBpm t with h | h
    · omega
    · omega

/-- One more tap of a uniformly spaced session: after `i + 1` taps at spacing
`d > 0` from `t0`, the tap at `t0 + d * (i + 1)` is accepted; from the third tap on
it emits `round (60000 / d)` exactly when the display shows something else. -/
theorem tapTempo_uniform (t0 d : Int) (hd : 0 < d) (i : Nat) (g : Dbl) :
    tapTempo (Metro.mk (i + 1) t0 (t0 + d * (i : Int))) g
        (t0 + d * ((i + 1 : Nat) : Int)) =
      (Metro.mk (i + 2) t0 (t0 + d * ((i + 1 : Nat) : Int)),
        if 1 ≤ i ∧ Dbl.fin (cround (60000 / (d : ℚ))) ≠ g then
          [setDisplayAndSyncBPM (Dbl.fin (cround (60000 / (d : ℚ)))), displayBPMChangeVisualCue]
        else []) := by
  have hdq : (0 : ℚ) < (d : ℚ) := by exact_mod_cast hd
  have hiq : (0 : ℚ) < ((i + 1 : Nat) : ℚ) := by positivity
  have hlast : (((t0 + d * ((i + 1 : Nat) : Int) -
      (t0 + d * (i : Int)) : Int)) : ℚ) = (d : ℚ) := by
    push_cast; ring
  have havg : (((t0 + d * ((i + 1 : Nat) : Int) - t0 : Int)) : ℚ) / ((i + 1 : Nat) : ℚ) =
      (d : ℚ) := by
    push_cast
    field_simp
  have hno : isReset (tapTempo (Metro.mk (i + 1) t0 (t0 + d * (i : Int))) g
      (t0 + d * ((i + 1 : Nat) : Int))).2 = false := by
    rw [Bool.eq_false_iff]
    intro h
    rw [tapTempo_isReset_iff _ _ _ (by simp)] at h
    dsimp only at h
    simp only [hlast, havg] at h
    rcases h with ⟨_, h | h⟩ | h | h <;> linarith
  rcases Nat.eq_zero_or_pos i with hi | hi
  · subst hi
    simp [tapTempo_second]
  · have hne : t0 + d * ((i + 1 : Nat) : Int) ≠ t0 := by
      have : 0 < d * ((i + 1 : Nat) : Int) := by positivity
      omega
    have hacc := tapTempo_accept (Metro.mk (i + 1) t0 (t0 + d * (i : Int))) g
      (t0 + d * ((i + 1 : Nat) : Int)) (by simp; omega) hno hne
    have hq : 60000 * ((i + 1 : Nat) : ℚ) /
        (((t0 + d * ((i + 1 : Nat) : Int) - t0 : Int)) : ℚ) = 60000 / (d : ℚ) := by
      push_cast
      field_simp
      ring
    simp only [hq] at hacc
    rw [hacc]
    have h1 : 1 ≤ i := hi
    simp [h1]

/-- Once the display shows `round (60000 / d)`, further uniformly spaced taps
signal nothing and leave the display alone. -/
theorem runOut_uniform_tail (t0 d : Int) (hd : 0 < d) (k : Nat) :
    ∀ i : Nat, 1 ≤ i →
      runOut (session (i + 1) t0 (t0 + d * (i : Int)) (Dbl.fin (cround (60000 / (d : ℚ)))))
          ((List.range k).map (fun n => t0 + d * ((i + 1 + n : Nat) : Int))) =
        List.replicate k [] ∧
      (runState (session (i + 1) t0 (t0 + d * (i : Int)) (Dbl.fin (cround (60000 / (d : ℚ)))))
          ((List.range k).map (fun n => t0 + d * ((i + 1 + n : Nat) : Int)))).currentBpm =
        Dbl.fin (cround (60000 / (d : ℚ))) := by
  induction k with
  | zero => intro i _; exact ⟨rfl, rfl⟩
  | succ k ih =>
    intro i hi
    rw [List.range_succ_eq_map, List.map_cons, List.map_map]
    have hstep := tapTempo_uniform t0 d hd i (Dbl.fin (cround (60000 / (d : ℚ))))
    simp only [ne_eq, not_true_eq_false, and_false, if_false] at hstep
    have hrec : recordTap
        (session (i + 1) t0 (t0 + d * (i : Int)) (Dbl.fin (cround (60000 / (d : ℚ)))))
        (t0 + d * ((i + 1 + 0 : Nat) : Int)) =
        (session (i + 1 + 1) t0 (t0 + d * ((i + 1 : Nat) : Int))
          (Dbl.fin (cround (60000 / (d : ℚ)))), []) := by
      simp only [recordTap, session, Nat.add_zero, hstep, List.foldl_nil]
    have hfun : ((fun n => t0 + d * ((i + 1 + n : Nat) : Int)) ∘ Nat.succ) =
        (fun n => t0 + d * ((i + 1 + 1 + n : Nat) : Int)) := by
      funext n
      simp only [Function.comp, Nat.succ_eq_add_one]
      congr 3
      omega
    rw [runOut, runState, hrec, hfun, List.replicate_succ]
    exact ⟨congrArg _ (ih (i + 1) (by omega)).1, (ih (i + 1) (by omega)).2⟩

/-- The first three taps of a uniformly spaced session from idle: only the third
may signal, and afterwards the display shows `round (60000 / d)`. -/
theorem run_uniform_three (f l : Int) (bpm : Dbl) (t0 d : Int) (hd : 0 < d) :
    runOut (idle f l bpm) [t0, t0 + d, t0 + d * 2] =
        [[], [],
          if Dbl.fin (cround (60000 / (d : ℚ))) ≠ bpm then
            [setDisplayAndSyncBPM (Dbl.fin (cround (60000 / (d : ℚ)))), displayBPMChangeVisualCue]
          else []] ∧
      runState (idle f l bpm) [t0, t0 + d, t0 + d * 2] =
        session 3 t0 (t0 + d * 2) (Dbl.fin (cround (60000 / (d : ℚ)))) := by
  have h1 : recordTap (idle f l bpm) t0 = (session 1 t0 t0 bpm, []) := by
    simp [recordTap, idle, session, tapTempo_first]
  have h2 : recordTap (session 1 t0 t0 bpm) (t0 + d) = (session 2 t0 (t0 + d) bpm, []) := by
    simp [recordTap, session, tapTempo_second]
  have h3 := tapTempo_uniform t0 d hd 1 bpm
  norm_num at h3
  have h3a : recordTap (session 2 t0 (t0 + d) bpm) (t0 + d * 2) =
      (session 3 t0 (t0 + d * 2) (Dbl.fin (cround (60000 / (d : ℚ)))),
        if Dbl.fin (cround (60000 / (d : ℚ))) ≠ bpm then
          [setDisplayAndSyncBPM (Dbl.fin (cround (60000 / (d : ℚ)))), displayBPMChangeVisualCue]
        else []) := by
    simp only [recordTap, session, h3]
    by_cases h : Dbl.fin (cround (60000 / (d : ℚ))) = bpm
    · simp [h]
    · simp [h, display]
  simp only [runOut, runState, h1, h2, h3a, and_self]

/-- A uniform sequence of `3 + k` taps is its first three taps followed by the rest. -/
theorem uniformTaps_three_add (t0 d : Int) (k : Nat) :
    uniformTaps t0 d (3 + k) =
      [t0, t0 + d, t0 + d * 2] ++
        (List.range k).map (fun n => t0 + d * ((2 + 1 + n : Nat) : Int)) := by
  unfold uniformTaps
  rw [List.range_add, List.map_append, List.map_map]
  congr 1
  simp [List.range_succ]

/-- The invariant of one tap: afterwards `lastTap` is the timestamp, the counter
is positive, and `firstTap` is the timestamp or the unchanged `firstTap` of a session
that had already started. -/
theorem recordTap_invariant (s : Session) (t : Int) :
    (recordTap s t).1.metro.lastTap = t ∧ 1 ≤ (recordTap s t).1.metro.numTaps ∧
      ((recordTap s t).1.metro.firstTap = t ∨
        ((recordTap s t).1.metro.firstTap = s.metro.firstTap ∧ 1 ≤ s.metro.numTaps)) := by
  refine ⟨tapTempo_lastTap s.metro s.currentBpm t, ?_, ?_⟩
  · rcases tapTempo_numTaps s.metro s.currentBpm t with h | h
    · exact le_of_eq h.1.symm
    · simp only [recordTap]; omega
  · rcases tapTempo_numTaps s.metro s.currentBpm t with h | h
    · exact Or.inl h.2.1
    · exact Or.inr ⟨h.2.2.1, h.2.1⟩

/-- The session members after a tap and whether it reset do not depend on the
displayed BPM. -/
theorem tapTempo_display_irrelevant (m : Metro) (g g' : Dbl) (ts : Int) :
    (tapTempo m g ts).1 = (tapTempo m g' ts).1 ∧
      isReset (tapTempo m g ts).2 = isReset (tapTempo m g' ts).2 := by
  simp only [tapTempo]
  split_ifs <;> simp [isReset]

/-- Two runs over the same timestamps from sessions with the same members go
through the same members and reset at the same taps, whatever the displays show. -/
theorem run_display_irrelevant (ts : List Int) :
    ∀ s s' : Session, s.metro = s'.metro →
      (runOut s ts).map isReset = (runOut s' ts).map isReset ∧
        (runState s ts).metro = (runState s' ts).metro := by
  induction ts with
  | nil => intro s s' h; exact ⟨rfl, h⟩
  | cons t ts ih =>
    intro s s' h
    have h1 := tapTempo_display_irrelevant s.metro s.currentBpm s'.currentBpm t
    have h2 := ih (recordTap s t).1 (recordTap s' t).1 (by
      simp only [recordTap, ← h]; exact h1.1)
    simp only [runOut, runState, List.map_cons]
    refine ⟨?_, h2.2⟩
    rw [h2.1]
    simp only [recordTap, ← h, h1.2]

/-- In a state reached from idle a counter of one means `firstTap = lastTap`. -/
theorem reachable_first_eq_last (f l : Int) (bpm : Dbl) (p : List Int)
    (h : (runState (idle f l bpm) p).metro.numTaps = 1) :
    (runState (idle f l bpm) p).metro.firstTap = (runState (idle f l bpm) p).metro.lastTap := by
  induction p using List.reverseRecOn with
  | nil => simp [runState, idle] at h
  | append_singleton p t _ =>
    rw [runState_append] at h ⊢
    simp only [runState] at h ⊢
    have hinv := recordTap_invariant (runState (idle f l bpm) p) t
    rcases tapTempo_numTaps (runState (idle f l bpm) p).metro
      (runState (idle f l bpm) p).currentBpm t with h1 | h1
    · rw [hinv.1]; exact h1.2.1
    · simp only [recordTap] at h
      omega

/-- The reset test of the code on integers, for a counter of at least two before
the tap: with `k = numTaps`, previous span `S` and new interval `d`, the tap resets
exactly when `(k - 1) * d - S` lies outside `± 50 * k`. -/
theorem isReset_iff_int (m : Metro) (g : Dbl) (ts : Int) (hn : 2 ≤ m.numTaps) :
    isReset (tapTempo m g ts).2 = true ↔
      50 * (m.numTaps : Int) <
        |((m.numTaps : Int) - 1) * (ts - m.lastTap) - (m.lastTap - m.firstTap)| := by
  have hk : (0 : ℚ) < (m.numTaps : ℚ) := by
    have : 0 < m.numTaps := by omega
    positivity
  rw [tapTempo_isReset_iff m g ts (by omega), lt_abs]
  have h3 : ¬ (m.numTaps + 1 < 3) := by omega
  have e1 : (((ts - m.lastTap : Int) : ℚ) > ((ts - m.firstTap : Int) : ℚ) / (m.numTaps : ℚ) + 50) ↔
      50 * (m.numTaps : Int) <
        ((m.numTaps : Int) - 1) * (ts - m.lastTap) - (m.lastTap - m.firstTap) := by
    rw [gt_iff_lt, ← sub_pos, ← Int.cast_lt (R := ℚ)]
    have : ((ts - m.lastTap : Int) : ℚ) - (((ts - m.firstTap : Int) : ℚ) / (m.numTaps : ℚ) + 50) =
        ((((m.numTaps : Int) - 1) * (ts - m.lastTap) - (m.lastTap - m.firstTap) -
          50 * (m.numTaps : Int) : Int) : ℚ) / (m.numTaps : ℚ) := by
      push_cast
      field_simp
      ring
    rw [this, div_pos_iff_of_pos_right hk]
    push_cast
    constructor <;> intro h <;> linarith
  have e2 : (((ts - m.lastTap : Int) : ℚ) < ((ts - m.firstTap : Int) : ℚ) / (m.numTaps : ℚ) - 50) ↔
      50 * (m.numTaps : Int) <
        -(((m.numTaps : Int) - 1) * (ts - m.lastTap) - (m.lastTap - m.firstTap)) := by
    rw [← sub_pos, ← Int.cast_lt (R := ℚ)]
    have : ((ts - m.firstTap : Int) : ℚ) / (m.numTaps : ℚ) - 50 - ((ts - m.lastTap : Int) : ℚ) =
        ((-(((m.numTaps : Int) - 1) * (ts - m.lastTap) - (m.lastTap - m.firstTap)) -
          50 * (m.numTaps : Int) : Int) : ℚ) / (m.numTaps : ℚ) := by
      push_cast
      field_simp
      ring
    rw [this, div_pos_iff_of_pos_right hk]
    push_cast
    constructor <;> intro h <;> linarith
  rw [e1, e2]
  constructor
  · rintro (⟨h, _⟩ | h)
    · exact absurd h h3
    · exact h
  · intro h; exact Or.inr h

/-! ## The claims -/

/-- C1: for a tap that is not the first of its session (the counter after the
increment is at least two) the session is reset exactly when `intervalSinceLast`
lies strictly outside `avgInterval ± w`, with `w = 30` while the counter is below
three and `w = 50` from three on; a resetting tap leaves `tapCount = 1` and
`firstTapTime = ts`, signals the reset cue only, emits no BPM and leaves the
displayed BPM unchanged. -/
theorem reset_rule (s : Session) (ts : Int) (hn : 2 ≤ s.metro.numTaps + 1) :
    (isReset (recordTap s ts).2 = true ↔
      (intervalSinceLast s.metro ts > avgInterval s.metro ts + tolerance s.metro ∨
        intervalSinceLast s.metro ts < avgInterval s.metro ts - tolerance s.metro)) ∧
    (tolerance s.metro = if s.metro.numTaps + 1 < 3 then 30 else 50) ∧
    (isReset (recordTap s ts).2 = true →
      (recordTap s ts).1.metro.numTaps = 1 ∧
      (recordTap s ts).1.metro.firstTap = ts ∧
      (recordTap s ts).2 = [displayResetVisualCue] ∧
      emitted (recordTap s ts).2 = none ∧
      isChanged (recordTap s ts).2 = false ∧
      (recordTap s ts).1.currentBpm = s.currentBpm) := by
  refine ⟨isReset_iff_outside s.metro s.currentBpm ts (by omega), rfl, ?_⟩
  intro h
  have h2 := tapTempo_of_isReset s.metro s.currentBpm ts h
  simp [recordTap, h2, emitted, isChanged, display]

/-- C1, the spec's example: after taps at 0, 500 and 1000 ms the tap at 1600 ms
(interval 600 against an average of 1600 / 3) resets, with the reset cue and no BPM. -/
theorem reset_rule_witness :
    runState (idle 0 0 (Dbl.fin 60)) [0, 500, 1000] = session 3 0 1000 (Dbl.fin 120) ∧
      2 ≤ (session 3 0 1000 (Dbl.fin 120)).metro.numTaps + 1 ∧
      isReset (recordTap (session 3 0 1000 (Dbl.fin 120)) 1600).2 = true ∧
      (recordTap (session 3 0 1000 (Dbl.fin 120)) 1600).2 = [displayResetVisualCue] ∧
      emitted (recordTap (session 3 0 1000 (Dbl.fin 120)) 1600).2 = none ∧
      (recordTap (session 3 0 1000 (Dbl.fin 120)) 1600).1 =
        session 1 1600 1600 (Dbl.fin 120) := by
  have h := reset_rule (session 3 0 1000 (Dbl.fin 120)) 1600 (by decide)
  have hr : isReset (recordTap (session 3 0 1000 (Dbl.fin 120)) 1600).2 = true := by
    rw [h.1]
    left
    norm_num [intervalSinceLast, avgInterval, tolerance, session]
  obtain ⟨h1, h2, h3, h4, _, h6⟩ := h.2.2 hr
  refine ⟨?_, by decide, hr, h3, h4, ?_⟩
  · norm_num [runState, recordTap, tapTempo, idle, Dbl.div, Dbl.ne, round, cround, display,
      session]
  · norm_num [recordTap, tapTempo, display, session]

/-- C3: no BPM is emitted before the third consistent tap.  For every sequence of
taps `p` fed from idle and every further tap `t`: if `t` emits a BPM then the counter
after it is at least three, it did not reset, and at least two taps preceded it.  A
single tap from idle emits nothing, the second tap of a session emits nothing
(whatever its distance, 500 ms included), and the tap following a reset emits
nothing. -/
theorem no_bpm_before_third_tap (f l : Int) (bpm : Dbl) (p : List Int) (t : Int) :
    (emitted (recordTap (runState (idle f l bpm) p) t).2 ≠ none →
      3 ≤ (recordTap (runState (idle f l bpm) p) t).1.metro.numTaps ∧
      isReset (recordTap (runState (idle f l bpm) p) t).2 = false ∧
      2 ≤ p.length) ∧
    emitted (recordTap (idle f l bpm) t).2 = none ∧
    (∀ t2 : Int, emitted (recordTap (recordTap (idle f l bpm) t).1 t2).2 = none) ∧
    emitted (recordTap (recordTap (idle f l bpm) t).1 (t + 500)).2 = none ∧
    (isReset (recordTap (runState (idle f l bpm) p) t).2 = true →
      ∀ t2 : Int,
        emitted (recordTap (recordTap (runState (idle f l bpm) p) t).1 t2).2 = none) := by
  have hsecond : ∀ t2 : Int,
      emitted (recordTap (recordTap (idle f l bpm) t).1 t2).2 = none := by
    intro t2
    simp [recordTap, idle, tapTempo_first, tapTempo_second, emitted]
  refine ⟨?_, ?_, hsecond, hsecond _, ?_⟩
  · intro h
    have h1 := tapTempo_emitted (runState (idle f l bpm) p).metro
      (runState (idle f l bpm) p).currentBpm t h
    have h2 := runState_numTaps_le f l bpm p
    refine ⟨h1.1, h1.2.2, ?_⟩
    have h3 := h1.1
    rw [h1.2.1] at h3
    omega
  · simp [recordTap, idle, tapTempo_first, emitted]
  · intro h t2
    have h1 := tapTempo_of_isReset (runState (idle f l bpm) p).metro
      (runState (idle f l bpm) p).currentBpm t h
    simp [recordTap, h1, tapTempo_second, emitted]

/-- C3 at a concrete session: with 60 BPM displayed the taps at 0 and 500 ms emit
nothing and the tap at 1000 ms emits, as the third tap with the counter at three. -/
theorem no_bpm_before_third_tap_witness :
    emitted (recordTap (runState (idle 0 0 (Dbl.fin 60)) [0, 500]) 1000).2 ≠ none ∧
      3 ≤ (recordTap (runState (idle 0 0 (Dbl.fin 60)) [0, 500]) 1000).1.metro.numTaps ∧
      isReset (recordTap (runState (idle 0 0 (Dbl.fin 60)) [0, 500]) 1000).2 = false ∧
      emitted (recordTap (idle 0 0 (Dbl.fin 60)) 1000).2 = none ∧
      emitted (recordTap (recordTap (idle 0 0 (Dbl.fin 60)) 1000).1 1500).2 = none := by
  have h := no_bpm_before_third_tap 0 0 (Dbl.fin 60) [0, 500] 1000
  have he : emitted (recordTap (runState (idle 0 0 (Dbl.fin 60)) [0, 500]) 1000).2 ≠ none := by
    have hv : emitted (recordTap (runState (idle 0 0 (Dbl.fin 60)) [0, 500]) 1000).2 =
        some (Dbl.fin 120) := by
      norm_num [runState, recordTap, tapTempo, idle, Dbl.div, Dbl.ne, round, cround, display,
        emitted]
    rw [hv]
    exact Option.some_ne_none _
  exact ⟨he, (h.1 he).1, (h.1 he).2.1, h.2.1, h.2.2.2.1⟩

/-- C4, as stated, fails when the display already shows 120: three taps at uniform
500 ms spacing from idle then emit no BPM at all. -/
theorem uniform_taps_counterexample :
    runOut (idle 0 0 (Dbl.fin 120)) (uniformTaps 0 500 3) = [[], [], []] ∧
      ¬ ∃ es ∈ runOut (idle 0 0 (Dbl.fin 120)) (uniformTaps 0 500 3),
          emitted es = some (Dbl.fin 120) := by
  have h : runOut (idle 0 0 (Dbl.fin 120)) (uniformTaps 0 500 3) = [[], [], []] := by
    norm_num [uniformTaps, List.range_succ, runOut, recordTap, tapTempo, idle, Dbl.div, Dbl.ne,
      round, cround, display]
  refine ⟨h, ?_⟩
  rw [h]
  simp [emitted]

/-- C4, amended: `k >= 3` taps at uniform spacing `d > 0` from idle never reset; the
first two taps signal nothing, the third emits `round (60000 / d)` (120 for
`d = 500`) with the "BPM changed" cue exactly when the BPM displayed before the
first tap is different, and the taps after the third signal nothing. -/
theorem uniform_taps_emit_once (f l : Int) (bpm : Dbl) (t0 d : Int) (k : Nat)
    (hd : 0 < d) (hk : 3 ≤ k) :
    runOut (idle f l bpm) (uniformTaps t0 d k) =
        [] :: [] ::
          (if Dbl.fin (cround (60000 / (d : ℚ))) ≠ bpm then
            [setDisplayAndSyncBPM (Dbl.fin (cround (60000 / (d : ℚ)))),
              displayBPMChangeVisualCue]
          else []) :: List.replicate (k - 3) [] ∧
      (∀ es ∈ runOut (idle f l bpm) (uniformTaps t0 d k), isReset es = false) ∧
      (runState (idle f l bpm) (uniformTaps t0 d k)).currentBpm =
        Dbl.fin (cround (60000 / (d : ℚ))) ∧
      (d = 500 → cround (60000 / (d : ℚ)) = 120) := by
  obtain ⟨j, rfl⟩ : ∃ j, k = 3 + j := ⟨k - 3, by omega⟩
  have h3 := run_uniform_three f l bpm t0 d hd
  have htail := runOut_uniform_tail t0 d hd j 2 (by decide)
  have hout : runOut (idle f l bpm) (uniformTaps t0 d (3 + j)) =
      [] :: [] ::
        (if Dbl.fin (cround (60000 / (d : ℚ))) ≠ bpm then
          [setDisplayAndSyncBPM (Dbl.fin (cround (60000 / (d : ℚ)))),
            displayBPMChangeVisualCue]
        else []) :: List.replicate (3 + j - 3) [] := by
    rw [uniformTaps_three_add, runOut_append, h3.1, h3.2]
    have hcast : ((2 : Nat) : Int) = 2 := rfl
    rw [hcast] at htail
    rw [htail.1]
    simp
  refine ⟨hout, ?_, ?_, ?_⟩
  · rw [hout]
    intro es hes
    simp only [List.mem_cons, List.mem_replicate] at hes
    rcases hes with h | h | h | h
    · subst h; rfl
    · subst h; rfl
    · subst h
      split_ifs <;> simp [isReset]
    · rw [h.2]; rfl
  · rw [uniformTaps_three_add, runState_append, h3.2]
    have hcast : ((2 : Nat) : Int) = 2 := rfl
    rw [hcast] at htail
    exact htail.2
  · intro h
    subst h
    norm_num [cround]

/-- C4 amended, at a concrete session: five taps 500 ms apart with 60 BPM displayed
emit 120 on the third tap and nothing else. -/
theorem uniform_taps_emit_once_witness :
    (0 : Int) < 500 ∧ 3 ≤ 5 ∧
      runOut (idle 0 0 (Dbl.fin 60)) (uniformTaps 0 500 5) =
        [[], [], [setDisplayAndSyncBPM (Dbl.fin 120), displayBPMChangeVisualCue], [], []] := by
  have h := uniform_taps_emit_once 0 0 (Dbl.fin 60) 0 500 5 (by decide) (by decide)
  have h120 : cround (60000 / ((500 : Int) : ℚ)) = 120 := h.2.2.2 rfl
  refine ⟨by decide, by decide, ?_⟩
  rw [h.1, h120]
  have hne : Dbl.fin ((120 : Int) : ℚ) ≠ Dbl.fin 60 := by
    norm_num
  rw [if_pos hne]
  norm_num [List.replicate]

/-- C5: three taps with one and the same timestamp `t` make `avgDistance` zero, so
the third tap divides 60.0 by zero and emits an infinite BPM: the division
`60000 / avgInterval` can be a division by zero and the emitted BPM need not be
finite.  (The divisor `numTaps - 1` of the first division is never zero.) -/
theorem equal_timestamps_emit_infinity (f l t : Int) (q : ℚ) :
    avgInterval (runState (idle f l (Dbl.fin q)) [t, t]).metro t = 0 ∧
      Dbl.div 60 (avgInterval (runState (idle f l (Dbl.fin q)) [t, t]).metro t / 1000) =
        Dbl.pinf ∧
      runOut (idle f l (Dbl.fin q)) [t, t, t] =
        [[], [], [setDisplayAndSyncBPM Dbl.pinf, displayBPMChangeVisualCue]] ∧
      emitted (recordTap (runState (idle f l (Dbl.fin q)) [t, t]) t).2 = some Dbl.pinf ∧
      (∀ m : Metro, ¬ (m.numTaps + 1 = 1) → ((m.numTaps + 1 - 1 : Nat) : ℚ) ≠ 0) := by
  refine ⟨?_, ?_, ?_, ?_, ?_⟩
  · norm_num [runState, recordTap, tapTempo, idle, avgInterval]
  · norm_num [runState, recordTap, tapTempo, idle, avgInterval, Dbl.div]
  · norm_num [runOut, recordTap, tapTempo, idle, Dbl.div, Dbl.ne, round, display]
    rw [if_neg (fun h => Dbl.noConfusion h)]
  · norm_num [runState, recordTap, tapTempo, idle, Dbl.div, Dbl.ne, round, display]
    rw [if_neg (fun h => Dbl.noConfusion h)]
    rfl
  · intro m hm
    have : 0 < m.numTaps := by omega
    simp only [Nat.add_sub_cancel]
    positivity

/-- C6: from idle, after every tap of a non-decreasing sequence of timestamps the
counter is at least one, `firstTapTime <= lastTapTime`, and `lastTapTime` is the
timestamp just processed; `lastTap` is set to the timestamp by every call, whatever
the branch. -/
theorem session_invariant (f l : Int) (bpm : Dbl) (p : List Int) (t : Int)
    (h : List.Chain' (fun a b : Int => a ≤ b) (p ++ [t])) :
    1 ≤ (runState (idle f l bpm) (p ++ [t])).metro.numTaps ∧
      (runState (idle f l bpm) (p ++ [t])).metro.firstTap ≤
        (runState (idle f l bpm) (p ++ [t])).metro.lastTap ∧
      (runState (idle f l bpm) (p ++ [t])).metro.lastTap = t ∧
      (∀ (s : Session) (ts : Int), (recordTap s ts).1.metro.lastTap = ts) := by
  refine ⟨?_, ?_, ?_, fun s ts => tapTempo_lastTap s.metro s.currentBpm ts⟩
  · rw [runState_append]
    exact (recordTap_invariant _ t).2.1
  · induction p using List.reverseRecOn generalizing t with
    | nil => simp [runState, recordTap, idle, tapTempo_first]
    | append_singleton p u ih =>
      have hch := List.chain'_append.mp h
      have hut : u ≤ t := hch.2.2 u (by simp) t (by simp)
      have ihu := ih u hch.1
      have hlast : (runState (idle f l bpm) (p ++ [u])).metro.lastTap = u := by
        rw [runState_append]
        exact (recordTap_invariant _ u).1
      rw [runState_append (idle f l bpm) (p ++ [u]) [t]]
      have hinv := recordTap_invariant (runState (idle f l bpm) (p ++ [u])) t
      simp only [runState]
      rcases hinv.2.2 with h1 | h1
      · rw [hinv.1, h1]
      · rw [hinv.1, h1.1]
        omega
  · rw [runState_append]
    exact (recordTap_invariant _ t).1

/-- C6 at a concrete non-decreasing sequence with a repeated timestamp. -/
theorem session_invariant_witness :
    List.Chain' (fun a b : Int => a ≤ b) ([0, 500, 500] ++ [1000]) ∧
      1 ≤ (runState (idle 0 0 (Dbl.fin 60)) ([0, 500, 500] ++ [1000])).metro.numTaps ∧
      (runState (idle 0 0 (Dbl.fin 60)) ([0, 500, 500] ++ [1000])).metro.firstTap ≤
        (runState (idle 0 0 (Dbl.fin 60)) ([0, 500, 500] ++ [1000])).metro.lastTap ∧
      (runState (idle 0 0 (Dbl.fin 60)) ([0, 500, 500] ++ [1000])).metro.lastTap = 1000 := by
  have hc : List.Chain' (fun a b : Int => a ≤ b) ([0, 500, 500] ++ [1000]) := by
    simp
  have h := session_invariant 0 0 (Dbl.fin 60) [0, 500, 500] 1000 hc
  exact ⟨hc, h.1, h.2.1, h.2.2.1⟩

/-- C7, as stated, fails: after the taps at 0, 500, 1000 ms the tap at 1600 ms
resets, and the next tap at 2100 ms leaves the counter at two, not one, in a state
different from that of a very first tap at 2100 ms. -/
theorem after_reset_counterexample :
    isReset (recordTap (runState (idle 0 0 (Dbl.fin 60)) [0, 500, 1000]) 1600).2 = true ∧
      (recordTap (recordTap (runState (idle 0 0 (Dbl.fin 60)) [0, 500, 1000]) 1600).1
        2100).1.metro.numTaps = 2 ∧
      (recordTap (recordTap (runState (idle 0 0 (Dbl.fin 60)) [0, 500, 1000]) 1600).1
        2100).1.metro.numTaps ≠ 1 ∧
      (recordTap (recordTap (runState (idle 0 0 (Dbl.fin 60)) [0, 500, 1000]) 1600).1
        2100).1 ≠ (recordTap (idle 0 0 (Dbl.fin 120)) 2100).1 := by
  have hs : runState (idle 0 0 (Dbl.fin 60)) [0, 500, 1000] = session 3 0 1000 (Dbl.fin 120) := by
    norm_num [runState, recordTap, tapTempo, idle, Dbl.div, Dbl.ne, round, cround, display,
      session]
  have hr : recordTap (session 3 0 1000 (Dbl.fin 120)) 1600 =
      (session 1 1600 1600 (Dbl.fin 120), [displayResetVisualCue]) := by
    norm_num [recordTap, tapTempo, display, session]
  have hn : recordTap (session 1 1600 1600 (Dbl.fin 120)) 2100 =
      (session 2 1600 2100 (Dbl.fin 120), []) := by
    simp [recordTap, session, tapTempo_second]
  have hi : recordTap (idle 0 0 (Dbl.fin 120)) 2100 = (session 1 2100 2100 (Dbl.fin 120), []) := by
    simp [recordTap, idle, session, tapTempo_first]
  rw [hs, hr, hn, hi]
  refine ⟨by simp [isReset], rfl, by simp [session], ?_⟩
  simp [session]

/-- C7, amended: the tap at `r` that resets leaves the session exactly as a very
first tap at `r` would (`tapCount = 1`, `firstTapTime = lastTapTime = r`, display
untouched); the next tap, at any `ts`, never resets, emits no BPM, signals no cue
and leaves `tapCount = 2` with `firstTapTime = r`: its result and state are those of
the second tap of a brand-new session whose first tap came at `r`. -/
theorem reset_starts_session (s : Session) (r : Int)
    (h : isReset (recordTap s r).2 = true) (f l ts : Int) :
    (recordTap s r).1 = (recordTap (idle f l s.currentBpm) r).1 ∧
      (recordTap s r).1 = session 1 r r s.currentBpm ∧
      recordTap (recordTap s r).1 ts = recordTap (recordTap (idle f l s.currentBpm) r).1 ts ∧
      recordTap (recordTap s r).1 ts = (session 2 r ts s.currentBpm, []) ∧
      emitted (recordTap (recordTap s r).1 ts).2 = none ∧
      isReset (recordTap (recordTap s r).1 ts).2 = false := by
  have h1 := tapTempo_of_isReset s.metro s.currentBpm r h
  have hr : (recordTap s r).1 = session 1 r r s.currentBpm := by
    simp [recordTap, h1, session, display]
  have hi : (recordTap (idle f l s.currentBpm) r).1 = session 1 r r s.currentBpm := by
    simp [recordTap, idle, session, tapTempo_first]
  have hn : recordTap (session 1 r r s.currentBpm) ts = (session 2 r ts s.currentBpm, []) := by
    simp [recordTap, session, tapTempo_second]
  rw [hr, hi, hn]
  exact ⟨rfl, rfl, rfl, rfl, rfl, rfl⟩

/-- C7 amended, at the spec's example: the reset at 1600 ms and the following tap
at 2100 ms. -/
theorem reset_starts_session_witness :
    isReset (recordTap (session 3 0 1000 (Dbl.fin 120)) 1600).2 = true ∧
      (recordTap (session 3 0 1000 (Dbl.fin 120)) 1600).1 = session 1 1600 1600 (Dbl.fin 120) ∧
      recordTap (recordTap (session 3 0 1000 (Dbl.fin 120)) 1600).1 2100 =
        (session 2 1600 2100 (Dbl.fin 120), []) := by
  have hr : isReset (recordTap (session 3 0 1000 (Dbl.fin 120)) 1600).2 = true := by
    norm_num [recordTap, tapTempo, display, session, isReset]
  have h := reset_starts_session (session 3 0 1000 (Dbl.fin 120)) 1600 hr 0 0 2100
  exact ⟨hr, h.2.1, h.2.2.2.1⟩

/-- C8, as stated, fails when the second run starts from the display the first run
left behind: with 60 BPM displayed the taps at 0, 500, 1000 ms emit 120, and the same
taps fed again from idle, the display now showing 120, emit nothing. -/
theorem rerun_counterexample :
    (runOut (idle 0 0 (Dbl.fin 60)) [0, 500, 1000]).map emitted =
        [none, none, some (Dbl.fin 120)] ∧
      (runOut (idle 0 0 (runState (idle 0 0 (Dbl.fin 60)) [0, 500, 1000]).currentBpm)
          [0, 500, 1000]).map emitted = [none, none, none] ∧
      runOut (idle 0 0 (Dbl.fin 60)) [0, 500, 1000] ≠
        runOut (idle 0 0 (runState (idle 0 0 (Dbl.fin 60)) [0, 500, 1000]).currentBpm)
          [0, 500, 1000] := by
  have hs : (runState (idle 0 0 (Dbl.fin 60)) [0, 500, 1000]).currentBpm = Dbl.fin 120 := by
    norm_num [runState, recordTap, tapTempo, idle, Dbl.div, Dbl.ne, round, cround, display]
  have h1 : runOut (idle 0 0 (Dbl.fin 60)) [0, 500, 1000] =
      [[], [], [setDisplayAndSyncBPM (Dbl.fin 120), displayBPMChangeVisualCue]] := by
    norm_num [runOut, recordTap, tapTempo, idle, Dbl.div, Dbl.ne, round, cround, display]
  have h2 : runOut (idle 0 0 (Dbl.fin 120)) [0, 500, 1000] = [[], [], []] := by
    norm_num [runOut, recordTap, tapTempo, idle, Dbl.div, Dbl.ne, round, cround, display]
  rw [hs, h1, h2]
  refine ⟨by simp [emitted], by simp [emitted], by simp⟩

/-- C8, amended: two runs over the same timestamps, each from an idle session and
with the same BPM displayed at the start, signal the same cues and emit the same
BPMs tap by tap and end in the same state, whatever stale `firstTap` and `lastTap`
the idle sessions hold; when the displayed BPMs differ the two runs still go through
the same session members and reset at the same taps. -/
theorem runs_agree (ts : List Int) (f l f' l' : Int) (bpm bpm' : Dbl) :
    runOut (idle f l bpm) ts = runOut (idle f' l' bpm) ts ∧
      (runOut (idle f l bpm) ts).map emitted = (runOut (idle f' l' bpm) ts).map emitted ∧
      (ts ≠ [] → runState (idle f l bpm) ts = runState (idle f' l' bpm) ts) ∧
      (runOut (idle f l bpm) ts).map isReset = (runOut (idle f' l' bpm') ts).map isReset ∧
      (ts ≠ [] → (runState (idle f l bpm) ts).metro = (runState (idle f' l' bpm') ts).metro) := by
  cases ts with
  | nil => simp [runOut]
  | cons t ts =>
    have h1 : ∀ (a b : Int) (g : Dbl), recordTap (idle a b g) t = (session 1 t t g, []) := by
      intro a b g
      simp [recordTap, idle, session, tapTempo_first]
    have h2 := run_display_irrelevant ts (session 1 t t bpm) (session 1 t t bpm') rfl
    simp only [runOut, runState, h1, List.map_cons, h2.1, h2.2]
    simp

/-- C8 amended, at a concrete sequence: the taps at 0, 500, 1000 ms fed to two idle
sessions with different stale members and 60 BPM displayed give the same output. -/
theorem runs_agree_witness :
    runOut (idle 0 0 (Dbl.fin 60)) [0, 500, 1000] =
        runOut (idle 7 9 (Dbl.fin 60)) [0, 500, 1000] ∧
      runOut (idle 7 9 (Dbl.fin 60)) [0, 500, 1000] =
        [[], [], [setDisplayAndSyncBPM (Dbl.fin 120), displayBPMChangeVisualCue]] := by
  have h := runs_agree [0, 500, 1000] 0 0 7 9 (Dbl.fin 60) (Dbl.fin 60)
  refine ⟨h.1, ?_⟩
  norm_num [runOut, recordTap, tapTempo, idle, Dbl.div, Dbl.ne, round, cround, display]

/-- C9: the ±30 ms window is never exercised.  In every state reached from idle a
counter of one means `firstTapTime = lastTapTime`; the second tap of a session then
has `intervalSinceLast = avgInterval`, never resets whatever the gap, signals
nothing and brings the counter to two; a tap that resets brings the counter
(after the increment) to three or more. -/
theorem tight_window_unused (f l : Int) (bpm : Dbl) (p : List Int) (ts : Int) :
    ((runState (idle f l bpm) p).metro.numTaps = 1 →
      (runState (idle f l bpm) p).metro.firstTap = (runState (idle f l bpm) p).metro.lastTap ∧
      intervalSinceLast (runState (idle f l bpm) p).metro ts =
        avgInterval (runState (idle f l bpm) p).metro ts ∧
      isReset (recordTap (runState (idle f l bpm) p) ts).2 = false ∧
      (recordTap (runState (idle f l bpm) p) ts).2 = [] ∧
      (recordTap (runState (idle f l bpm) p) ts).1.metro.numTaps = 2) ∧
    (isReset (recordTap (runState (idle f l bpm) p) ts).2 = true →
      3 ≤ (runState (idle f l bpm) p).metro.numTaps + 1) := by
  have key : (runState (idle f l bpm) p).metro.numTaps = 1 →
      (runState (idle f l bpm) p).metro.firstTap = (runState (idle f l bpm) p).metro.lastTap ∧
      intervalSinceLast (runState (idle f l bpm) p).metro ts =
        avgInterval (runState (idle f l bpm) p).metro ts ∧
      isReset (recordTap (runState (idle f l bpm) p) ts).2 = false ∧
      (recordTap (runState (idle f l bpm) p) ts).2 = [] ∧
      (recordTap (runState (idle f l bpm) p) ts).1.metro.numTaps = 2 := by
    intro h1
    have h2 := reachable_first_eq_last f l bpm p h1
    have hm : (runState (idle f l bpm) p).metro =
        Metro.mk 1 (runState (idle f l bpm) p).metro.firstTap
          (runState (idle f l bpm) p).metro.firstTap := by
      cases hs : (runState (idle f l bpm) p).metro with
      | mk n a b =>
        rw [hs] at h1 h2
        simp only at h1 h2
        rw [h1, h2]
    have hr : recordTap (runState (idle f l bpm) p) ts =
        (session 2 (runState (idle f l bpm) p).metro.firstTap ts
          (runState (idle f l bpm) p).currentBpm, []) := by
      simp only [recordTap]
      rw [hm, tapTempo_second]
      rfl
    refine ⟨h2, ?_, ?_, ?_, ?_⟩
    · simp only [intervalSinceLast, avgInterval, h1, h2]
      norm_num
    · rw [hr]; rfl
    · rw [hr]
    · rw [hr]; rfl
  refine ⟨key, ?_⟩
  intro hr
  by_contra hlt
  have hcases : (runState (idle f l bpm) p).metro.numTaps = 0 ∨
      (runState (idle f l bpm) p).metro.numTaps = 1 := by omega
  rcases hcases with h0 | h1
  · have := tapTempo_isReset_first (runState (idle f l bpm) p).metro
      (runState (idle f l bpm) p).currentBpm ts h0
    simp only [recordTap] at hr
    rw [this] at hr
    exact Bool.false_ne_true hr
  · rw [(key h1).2.2.1] at hr
    exact Bool.false_ne_true hr

/-- C9 at a concrete session: after one tap at 0 ms, a second tap a full hour later
is accepted without a reset. -/
theorem tight_window_unused_witness :
    (runState (idle 0 0 (Dbl.fin 60)) [0]).metro.numTaps = 1 ∧
      isReset (recordTap (runState (idle 0 0 (Dbl.fin 60)) [0]) 3600000).2 = false ∧
      (recordTap (runState (idle 0 0 (Dbl.fin 60)) [0]) 3600000).1.metro.numTaps = 2 := by
  have h1 : (runState (idle 0 0 (Dbl.fin 60)) [0]).metro.numTaps = 1 := by
    simp [runState, recordTap, idle, tapTempo_first]
  have h := (tight_window_unused 0 0 (Dbl.fin 60) [0] 3600000).1 h1
  exact ⟨h1, h.2.2.1, h.2.2.2.2⟩

/-- C10: with `n - 1 >= 2` taps before the tap (`n` the counter after the
increment), previous span `S = lastTapTime - firstTapTime` and new interval
`d = ts - lastTapTime`, the tap resets exactly when `|(n - 2) * d - S| > 50 * (n - 1)`,
that is when `d` deviates from the previous average `S / (n - 2)` by more than
`50 * (n - 1) / (n - 2)`; the third tap of a session resets exactly when
`|d - S| > 100`. -/
theorem effective_tolerance (s : Session) (ts : Int) (hn : 2 ≤ s.metro.numTaps) :
    (isReset (recordTap s ts).2 = true ↔
      50 * (((s.metro.numTaps + 1 : Nat) : Int) - 1) <
        |(((s.metro.numTaps + 1 : Nat) : Int) - 2) * (ts - s.metro.lastTap) -
          (s.metro.lastTap - s.metro.firstTap)|) ∧
    (isReset (recordTap s ts).2 = true ↔
      50 * ((((s.metro.numTaps + 1 : Nat) : ℚ) - 1) / (((s.metro.numTaps + 1 : Nat) : ℚ) - 2)) <
        |((ts - s.metro.lastTap : Int) : ℚ) -
          ((s.metro.lastTap - s.metro.firstTap : Int) : ℚ) /
            (((s.metro.numTaps + 1 : Nat) : ℚ) - 2)|) ∧
    (s.metro.numTaps = 2 →
      (isReset (recordTap s ts).2 = true ↔
        100 < |(ts - s.metro.lastTap) - (s.metro.lastTap - s.metro.firstTap)|)) := by
  have hint := isReset_iff_int s.metro s.currentBpm ts hn
  have hc1 : (((s.metro.numTaps + 1 : Nat) : Int) - 1) = (s.metro.numTaps : Int) := by
    push_cast; ring
  have hc2 : (((s.metro.numTaps + 1 : Nat) : Int) - 2) = (s.metro.numTaps : Int) - 1 := by
    push_cast; ring
  have h1 : isReset (recordTap s ts).2 = true ↔
      50 * (((s.metro.numTaps + 1 : Nat) : Int) - 1) <
        |(((s.metro.numTaps + 1 : Nat) : Int) - 2) * (ts - s.metro.lastTap) -
          (s.metro.lastTap - s.metro.firstTap)| := by
    rw [hc1, hc2]
    exact hint
  refine ⟨h1, ?_, ?_⟩
  · rw [h1, hc1, hc2]
    have hq1 : (((s.metro.numTaps + 1 : Nat) : ℚ) - 1) = (s.metro.numTaps : ℚ) := by
      push_cast; ring
    have hq2 : (((s.metro.numTaps + 1 : Nat) : ℚ) - 2) = (s.metro.numTaps : ℚ) - 1 := by
      push_cast; ring
    have hpos : (0 : ℚ) < (s.metro.numTaps : ℚ) - 1 := by
      have : (2 : ℚ) ≤ (s.metro.numTaps : ℚ) := by exact_mod_cast hn
      linarith
    rw [hq1, hq2]
    have hrew : ((ts - s.metro.lastTap : Int) : ℚ) -
        ((s.metro.lastTap - s.metro.firstTap : Int) : ℚ) / ((s.metro.numTaps : ℚ) - 1) =
        ((((s.metro.numTaps : Int) - 1) * (ts - s.metro.lastTap) -
          (s.metro.lastTap - s.metro.firstTap) : Int) : ℚ) / ((s.metro.numTaps : ℚ) - 1) := by
      push_cast
      field_simp
      ring
    rw [hrew, abs_div, abs_of_pos hpos, mul_div_assoc', div_lt_div_iff_of_pos_right hpos,
      ← Int.cast_abs, ← Int.cast_lt (R := ℚ)]
    push_cast
    rfl
  · intro h2
    rw [h1, hc1, hc2, h2]
    norm_num

/-- C10 at the spec's intervals: 500 then 600 ms is accepted on the third tap and
gives `round (60000 / 550) = 109`; 500, 500 then 560 ms is accepted on the fourth tap
although 560 is more than 50 ms away from the previous average 500. -/
theorem effective_tolerance_witness :
    2 ≤ (session 2 0 500 (Dbl.fin 60)).metro.numTaps ∧
      isReset (recordTap (session 2 0 500 (Dbl.fin 60)) 1100).2 = false ∧
      runOut (idle 0 0 (Dbl.fin 60)) [0, 500, 1100] =
        [[], [], [setDisplayAndSyncBPM (Dbl.fin 109), displayBPMChangeVisualCue]] ∧
      2 ≤ (session 3 0 1000 (Dbl.fin 120)).metro.numTaps ∧
      isReset (recordTap (session 3 0 1000 (Dbl.fin 120)) 1560).2 = false ∧
      runOut (idle 0 0 (Dbl.fin 60)) [0, 500, 1000, 1560] =
        [[], [], [setDisplayAndSyncBPM (Dbl.fin 120), displayBPMChangeVisualCue],
          [setDisplayAndSyncBPM (Dbl.fin 115), displayBPMChangeVisualCue]] := by
  have h3 := effective_tolerance (session 2 0 500 (Dbl.fin 60)) 1100 (by decide)
  have h4 := effective_tolerance (session 3 0 1000 (Dbl.fin 120)) 1560 (by decide)
  refine ⟨by decide, ?_, ?_, by decide, ?_, ?_⟩
  · rw [Bool.eq_false_iff]
    intro h
    have := h3.1.mp h
    norm_num [session] at this
  · norm_num [runOut, recordTap, tapTempo, idle, Dbl.div, Dbl.ne, round, cround, display]
  · rw [Bool.eq_false_iff]
    intro h
    have := h4.1.mp h
    norm_num [session] at this
  · norm_num [runOut, recordTap, tapTempo, idle, Dbl.div, Dbl.ne, round, cround, display]

end SonicPiMetro
